import Mathlib

/-!
Verification development for the webdb Persistent Site Store and
Ledger-Backed Upload Pipeline.

The definitions below are a shallow embedding of the TypeScript sources:

* `FileStorage` (src/db-chain.ts, the file-storage class used by the
  gateway): `storeFile`, `storeSite`, `getFile`, `getSiteMetadata`,
  `writeToGolemDB`, `storeLocally`/`readLocally`, `isExpired`,
  `generateFileKey`, `generateMetadataKey`.
* `SiteUploader` (src/uploader.ts): `uploadSite`, `uploadFiles`,
  `processFile`, `validateSiteStructure`, and the zod upload schema.
* `GolemDBClient` (src/golem-db-client.ts): the nonce-acquisition
  protocol of `createEntity`/`getNonce`, as a small interleaving model.

Modelling conventions:
* Byte sequences are `List Nat`.
* The local mirror (`/tmp/webdb-storage` files) is an association list
  from string keys to entries; a later write to the same key shadows the
  earlier one, matching file overwrite semantics.  Mirror writes are
  total here: mirror I/O failure is a separate fatal error class in the
  source and is outside the claims about ledger degradation.
* Wall-clock time is passed explicitly: `nowSec` for the second-valued
  clock used in `btl` fields, `nowMs` for the millisecond-valued clock
  used in `Date` comparisons.
* The external ledger is an oracle `ledger : String → Option String`
  giving, per entry key, the entity key of a successful
  `GolemDBClient.createEntity` call, or `none` when that call throws
  (the source catches every such error and returns `null`).
* `JSON.stringify`/`JSON.parse` of the metadata record is modelled by
  the `EntryValue.metaJson` constructor: the serialized text is opaque,
  only its round-trip behaviour is visible to the program.
-/

deriving instance DecidableEq for Except

/-- A raw incoming file of an upload request: path plus content bytes. -/
structure RawFile where
  path : String
  content : List Nat
deriving DecidableEq, Repr

/-- The `SiteFile` record of src/types.ts. `lastModified` is a
millisecond timestamp (the source stores a `Date`). -/
structure SiteFile where
  path : String
  content : List Nat
  contentType : String
  size : Nat
  lastModified : Nat
deriving DecidableEq, Repr

/-- The `SiteMetadata` record of src/types.ts. `createdAt` and
`btlExpiry` are millisecond timestamps. -/
structure SiteMetadata where
  siteId : String
  name : String
  domain : String
  totalSize : Nat
  fileCount : Nat
  createdAt : Nat
  btlExpiry : Nat
deriving DecidableEq, Repr

/-- The nested `metadata` field of `DBChainEntry` (src/types.ts);
`lastModified` is the ISO string of a millisecond timestamp, which
round-trips, so it is kept as the timestamp itself. -/
structure EntryMeta where
  contentType : String
  path : String
  siteId : String
  size : Nat
  lastModified : Nat
deriving DecidableEq, Repr

/-- The value bytes of a stored entry.  File entries hold raw content
bytes; the site-metadata entry holds the JSON serialization of a
`SiteMetadata` record, modelled opaquely by `metaJson` (only the
`JSON.parse` round-trip of the source is observable). -/
inductive EntryValue where
  | bytes : List Nat → EntryValue
  | metaJson : SiteMetadata → EntryValue
deriving DecidableEq, Repr

/-- The `DBChainEntry` record of src/types.ts. `btl` is a second-valued
absolute expiry timestamp. -/
structure DBChainEntry where
  key : String
  value : EntryValue
  metadata : EntryMeta
  btl : Nat
deriving DecidableEq, Repr

/-- The local durable mirror: the `/tmp/webdb-storage` key-to-file
surface of `FileStorage.storeLocally`/`readLocally`, as an association
list where the head shadows older entries for the same key. -/
abbrev Mirror := List (String × DBChainEntry)

/-- Read of `FileStorage.readLocally`: first (most recent) entry under
the key, if any. -/
def mirrorLookup (st : Mirror) (k : String) : Option DBChainEntry :=
  (st.find? (fun p => p.1 == k)).map (fun p => p.2)

/-- Write of `FileStorage.storeLocally`: overwrite the file for the
key. -/
def mirrorInsert (st : Mirror) (k : String) (e : DBChainEntry) : Mirror :=
  (k, e) :: st

/-- Ledger oracle: outcome of `GolemDBClient.createEntity` for a given
entry key (`none` models any thrown error, caught by
`FileStorage.writeToGolemDB`). -/
abbrev Ledger := String → Option String

/-- Thirty days in seconds, the `btl` lifetime used by `FileStorage`. -/
def btlSeconds : Nat := 30 * 24 * 60 * 60

/-- Thirty days in milliseconds, the `btlExpiry` lifetime of site
metadata. -/
def btlMillis : Nat := 30 * 24 * 60 * 60 * 1000

/-- Helper: does the first char list start the second one. -/
def charsPrefixEq : List Char → List Char → Bool
  | [], _ => true
  | _ :: _, [] => false
  | a :: as, b :: bs => a == b && charsPrefixEq as bs

/-- Helper: does the first char list occur contiguously inside the
second one. -/
def charsContains (pat : List Char) : List Char → Bool
  | [] => charsPrefixEq pat []
  | c :: rest => charsPrefixEq pat (c :: rest) || charsContains pat rest

/-- The `String.prototype.includes` check used by
`SiteUploader.processFile`. -/
def strContains (s pat : String) : Bool :=
  charsContains pat.data s.data

/-- The `String.prototype.startsWith` check of the sources, spelled
over character lists. -/
def strStartsWith (s pre : String) : Bool :=
  charsPrefixEq pre.data s.data

/-- Lowercasing of the sources, character by character. -/
def strToLower (s : String) : String :=
  String.mk (s.data.map Char.toLower)

/-- The `split` on a dot of the sources, over character lists; always
returns a nonempty list of segments. -/
def splitOnDot : List Char → List (List Char)
  | [] => [[]]
  | c :: rest =>
    let r := splitOnDot rest
    if c == '.' then [] :: r
    else
      match r with
      | [] => [[c]]
      | g :: gs => (c :: g) :: gs

/-- Embedding of `FileStorage.generateFileKey`: strip one leading slash, then build
the namespaced key. -/
def generateFileKey (siteId path : String) : String :=
  "site:" ++ siteId ++ ":file:" ++ (if strStartsWith path "/" then path.drop 1 else path)

/-- Embedding of `FileStorage.generateMetadataKey`. -/
def generateMetadataKey (siteId : String) : String :=
  "site:" ++ siteId ++ ":metadata"

/-- Embedding of `FileStorage.isExpired`: an entry is expired when its btl is
positive and strictly in the past. -/
def isExpired (nowSec : Nat) (e : DBChainEntry) : Bool :=
  decide (0 < e.btl) && decide (e.btl < nowSec)

/-- The entry built by `FileStorage.storeFile` before writing. -/
def mkFileEntry (nowSec : Nat) (siteId : String) (f : SiteFile) : DBChainEntry :=
  { key := generateFileKey siteId f.path
    value := EntryValue.bytes f.content
    metadata :=
      { contentType := f.contentType
        path := f.path
        siteId := siteId
        size := f.size
        lastModified := f.lastModified }
    btl := nowSec + btlSeconds }

/-- Embedding of `FileStorage.storeFile`: attempt the ledger write (outcome
captured, failure swallowed), then always write the entry to the local
mirror; return the entity key when the ledger accepted, else fall back
to the entry key. -/
def storeFile (ledger : Ledger) (nowSec : Nat) (st : Mirror) (siteId : String)
    (f : SiteFile) : Mirror × String :=
  let key := generateFileKey siteId f.path
  let entry := mkFileEntry nowSec siteId f
  let txHash := ledger key
  (mirrorInsert st key entry, txHash.getD key)

/-- Per-file result record inside an upload result
(`path`, `size`, `key`, optional transaction hash). -/
structure UploadFileInfo where
  path : String
  size : Nat
  key : String
  txHash : Option String
deriving DecidableEq, Repr

/-- The `UploadResult` record of src/types.ts.  `totalSize` is an `Int`
because the incremental accounting of `uploadFiles` is JS number
arithmetic and may go below zero. -/
structure UploadResult where
  siteId : String
  domain : String
  files : List UploadFileInfo
  totalSize : Int
  indexTxHash : Option String
deriving DecidableEq, Repr

/-- Result of `FileStorage.storeSite`. -/
structure StoreSiteResult where
  metadata : SiteMetadata
  files : List UploadFileInfo
  indexTxHash : Option String
deriving DecidableEq, Repr

/-- The per-file loop of `FileStorage.storeSite`: store each file,
record its path, size, key and transaction hash, and remember the hash
of `index.html` for the explorer backlink. -/
def storeSiteFiles (ledger : Ledger) (nowSec : Nat) (siteId : String) :
    List SiteFile → Mirror → List UploadFileInfo → Option String →
    Mirror × List UploadFileInfo × Option String
  | [], st, acc, idx => (st, acc, idx)
  | f :: rest, st, acc, idx =>
    let r := storeFile ledger nowSec st siteId f
    let info : UploadFileInfo :=
      { path := f.path, size := f.size
        key := generateFileKey siteId f.path, txHash := some r.2 }
    let idx' := if f.path == "index.html" then some r.2 else idx
    storeSiteFiles ledger nowSec siteId rest r.1 (acc ++ [info]) idx'

/-- The metadata entry written by `FileStorage.storeSite`.  The `size`
field of the nested record is the length of the serialized JSON text;
that text is opaque in this model and the field is never read, so it is
kept at 0. -/
def mkMetadataEntry (nowSec : Nat) (siteId : String) (m : SiteMetadata) : DBChainEntry :=
  { key := generateMetadataKey siteId
    value := EntryValue.metaJson m
    metadata :=
      { contentType := "application/json"
        path := "_metadata"
        siteId := siteId
        size := 0
        lastModified := 0 }
    btl := nowSec + btlSeconds }

/-- Embedding of `FileStorage.storeSite`: store every file, then compute and store
the site metadata (ledger write attempted and ignored, mirror write
always performed). -/
def storeSite (ledger : Ledger) (nowSec nowMs : Nat) (st : Mirror) (siteId : String)
    (files : List SiteFile) : Mirror × StoreSiteResult :=
  let totalSize := (files.map (fun f => f.size)).sum
  let r := storeSiteFiles ledger nowSec siteId files st [] none
  let metadata : SiteMetadata :=
    { siteId := siteId
      name := siteId
      domain := siteId ++ ".webdb.site"
      totalSize := totalSize
      fileCount := files.length
      createdAt := nowMs
      btlExpiry := nowMs + btlMillis }
  let st' := mirrorInsert r.1 (generateMetadataKey siteId) (mkMetadataEntry nowSec siteId metadata)
  (st', { metadata := metadata, files := r.2.1, indexTxHash := r.2.2 })

/-- Embedding of `FileStorage.getFile`: read the mirror only; a missing or expired
entry is absent.  A metadata blob under a file key cannot be decoded as
a site file, which the catch-all error path of the source reports as
absent (file keys never hold metadata, see `fileKey_ne_metadataKey`). -/
def getFile (nowSec : Nat) (st : Mirror) (siteId path : String) : Option SiteFile :=
  match mirrorLookup st (generateFileKey siteId path) with
  | none => none
  | some entry =>
    if isExpired nowSec entry then none
    else
      match entry.value with
      | EntryValue.bytes b =>
        some { path := entry.metadata.path
               content := b
               contentType := entry.metadata.contentType
               size := entry.metadata.size
               lastModified := entry.metadata.lastModified }
      | EntryValue.metaJson _ => none

/-- Embedding of `FileStorage.getSiteMetadata`: read the mirror only; a missing or
expired entry is absent; `JSON.parse` of a non-metadata value throws
and the catch returns null. -/
def getSiteMetadata (nowSec : Nat) (st : Mirror) (siteId : String) : Option SiteMetadata :=
  match mirrorLookup st (generateMetadataKey siteId) with
  | none => none
  | some entry =>
    if isExpired nowSec entry then none
    else
      match entry.value with
      | EntryValue.metaJson m => some m
      | EntryValue.bytes _ => none

/-- The path normalization of `SiteUploader.processFile`: backslashes
to forward slashes, then strip one leading slash. -/
def normalizePath (p : String) : String :=
  let q := String.mk (p.data.map (fun c => if c == '\x5c' then '/' else c))
  if strStartsWith q "/" then q.drop 1 else q

/-- Modelled from the spec: the `mime-types` `lookup` call of
`SiteUploader.processFile` is an external library, not code of this
repository; the spec says the content type is derived from the path
extension at write time, defaulting to application/octet-stream. -/
def lookupMime (path : String) : String :=
  match ((splitOnDot (strToLower path).data).getLast?).map String.mk with
  | some "html" => "text/html"
  | some "htm" => "text/html"
  | some "css" => "text/css"
  | some "js" => "text/javascript"
  | some "json" => "application/json"
  | some "png" => "image/png"
  | some "jpg" => "image/jpeg"
  | some "jpeg" => "image/jpeg"
  | some "gif" => "image/gif"
  | some "svg" => "image/svg+xml"
  | some "txt" => "text/plain"
  | _ => "application/octet-stream"

/-- Embedding of `SiteUploader.processFile`: normalize the path, reject traversal
(`..`), empty segments (`//`) and empty paths, derive the content type
and build the `SiteFile`. -/
def processFile (nowMs : Nat) (fd : RawFile) : Except String SiteFile :=
  let path := normalizePath fd.path
  if strContains path ".." || strContains path "//" then
    Except.error ("Invalid file path: " ++ path)
  else if path.length == 0 then
    Except.error "Empty file path"
  else
    Except.ok
      { path := path
        content := fd.content
        contentType := lookupMime path
        size := fd.content.length
        lastModified := nowMs }

/-- A character allowed in a siteId by the zod schema. -/
def validSiteIdChar (c : Char) : Bool :=
  c.isAlphanum || c == '-' || c == '_'

/-- The zod `uploadSchema` of `SiteUploader.uploadSite`: siteId of
bounded length over the allowed alphabet, between 1 and 1000 files,
every raw path nonempty. -/
def schemaOk (siteId : String) (files : List RawFile) : Bool :=
  decide (1 ≤ siteId.length) && decide (siteId.length ≤ 64) &&
  siteId.data.all validSiteIdChar &&
  decide (1 ≤ files.length) && decide (files.length ≤ 1000) &&
  files.all (fun fd => decide (1 ≤ fd.path.length))

/-- Entry-point check of `SiteUploader.validateSiteStructure`. -/
def hasIndexFile (files : List SiteFile) : Bool :=
  files.any (fun f => f.path == "index.html") ||
  files.any (fun f => f.path == "index.htm")

/-- The denylisted extensions of `SiteUploader.validateSiteStructure`. -/
def suspiciousExtensions : List String :=
  [".exe", ".bat", ".sh", ".php", ".asp", ".jsp"]

/-- The `split('.').pop()` extension extraction, lowercased. -/
def extOf (path : String) : String :=
  (((splitOnDot (strToLower path).data).getLast?).map String.mk).getD ""

/-- Does the path carry a denylisted executable/script extension. -/
def forbiddenExt (path : String) : Bool :=
  extOf path != "" && suspiciousExtensions.contains ("." ++ extOf path)

/-- The hidden-file allowlist check of
`SiteUploader.validateSiteStructure`. -/
def hiddenAllowed (path : String) : Bool :=
  [".htaccess", ".well-known"].any
    (fun a => path == a || strStartsWith path (a ++ "/"))

/-- Does the path violate the hidden-file policy. -/
def hiddenViolation (path : String) : Bool :=
  strStartsWith path "." && !hiddenAllowed path

/-- Embedding of `SiteUploader.validateSiteStructure`: entry point required, then
the extension denylist, then the hidden-file policy, reporting the
first offending file. -/
def validateSiteStructure (files : List SiteFile) : Except String Unit :=
  if !hasIndexFile files then
    Except.error "Site must contain an index.html or index.htm file"
  else
    match files.find? (fun f => forbiddenExt f.path) with
    | some f => Except.error ("File type not allowed: " ++ f.path)
    | none =>
      match files.find? (fun f => hiddenViolation f.path) with
      | some f => Except.error ("Hidden file not allowed: " ++ f.path)
      | none => Except.ok ()

/-- The per-file validation loop of `SiteUploader.uploadSite`: process
each file, enforce the per-file limit, accumulate the running total and
enforce the site limit, collecting the processed files. -/
def processBatch (maxFileSize maxSiteSize nowMs : Nat) :
    List RawFile → Nat → List SiteFile → Except String (List SiteFile × Nat)
  | [], total, acc => Except.ok (acc, total)
  | fd :: rest, total, acc =>
    match processFile nowMs fd with
    | Except.error e => Except.error e
    | Except.ok file =>
      if maxFileSize < file.size then
        Except.error ("File " ++ file.path ++ " exceeds maximum size")
      else if maxSiteSize < total + file.size then
        Except.error "Site exceeds maximum size"
      else
        processBatch maxFileSize maxSiteSize nowMs rest (total + file.size) (acc ++ [file])

/-- The pre-write phase of `SiteUploader.uploadSite`: schema
validation, conflict check against existing unexpired metadata, the
per-file validation loop, then structural validation.  This phase only
reads the mirror; every write of `uploadSite` happens after it has
succeeded in full. -/
def uploadSiteChecks (nowSec nowMs maxFileSize maxSiteSize : Nat)
    (st : Mirror) (siteId : String) (files : List RawFile) :
    Except String (List SiteFile × Nat) :=
  if !schemaOk siteId files then
    Except.error "Invalid upload data"
  else
    match getSiteMetadata nowSec st siteId with
    | some _ => Except.error ("Site " ++ siteId ++ " already exists")
    | none =>
      match processBatch maxFileSize maxSiteSize nowMs files 0 [] with
      | Except.error e => Except.error e
      | Except.ok (siteFiles, totalSize) =>
        match validateSiteStructure siteFiles with
        | Except.error e => Except.error e
        | Except.ok _ => Except.ok (siteFiles, totalSize)

/-- Embedding of `SiteUploader.uploadSite`: run the full validation phase, then
commit the batch through `storeSite`.  Thrown errors leave the mirror
untouched, which the pair return value makes explicit. -/
def uploadSite (ledger : Ledger) (nowSec nowMs maxFileSize maxSiteSize : Nat)
    (st : Mirror) (siteId : String) (files : List RawFile) :
    Mirror × Except String UploadResult :=
  match uploadSiteChecks nowSec nowMs maxFileSize maxSiteSize st siteId files with
  | Except.error e => (st, Except.error e)
  | Except.ok (siteFiles, totalSize) =>
    let r := storeSite ledger nowSec nowMs st siteId siteFiles
    (r.1,
     Except.ok
       { siteId := siteId
         domain := r.2.metadata.domain
         files := r.2.files
         totalSize := (totalSize : Int)
         indexTxHash := r.2.indexTxHash })

/-- The validation loop of `SiteUploader.uploadFiles`: process each
file, enforce the per-file limit, subtract the size of an existing
unexpired file at the same path from the running total before adding
the new size, and enforce the site limit on the result. -/
def uploadFilesValidate (maxFileSize maxSiteSize nowSec nowMs : Nat)
    (st : Mirror) (siteId : String) :
    List RawFile → Int → List SiteFile → Except String (List SiteFile × Int)
  | [], total, acc => Except.ok (acc, total)
  | fd :: rest, total, acc =>
    match processFile nowMs fd with
    | Except.error e => Except.error e
    | Except.ok file =>
      if maxFileSize < file.size then
        Except.error ("File " ++ file.path ++ " exceeds maximum size")
      else
        let total1 :=
          match getFile nowSec st siteId file.path with
          | some existing => total - (existing.size : Int)
          | none => total
        let total2 := total1 + (file.size : Int)
        if (maxSiteSize : Int) < total2 then
          Except.error "Site would exceed maximum size"
        else
          uploadFilesValidate maxFileSize maxSiteSize nowSec nowMs st siteId rest total2 (acc ++ [file])

/-- The store loop of `SiteUploader.uploadFiles`: store each validated
file, collecting the returned keys in order. -/
def storeFilesLoop (ledger : Ledger) (nowSec : Nat) (siteId : String) :
    List SiteFile → Mirror → List String → Mirror × List String
  | [], st, keys => (st, keys)
  | f :: rest, st, keys =>
    let r := storeFile ledger nowSec st siteId f
    storeFilesLoop ledger nowSec siteId rest r.1 (keys ++ [r.2])

/-- The pre-write phase of `SiteUploader.uploadFiles`: require
existing unexpired site metadata, then validate the whole batch with
incremental size accounting.  This phase only reads the mirror. -/
def uploadFilesChecks (nowSec nowMs maxFileSize maxSiteSize : Nat)
    (st : Mirror) (siteId : String) (files : List RawFile) :
    Except String (SiteMetadata × List SiteFile × Int) :=
  match getSiteMetadata nowSec st siteId with
  | none => Except.error ("Site " ++ siteId ++ " does not exist")
  | some metadata =>
    if metadata.btlExpiry < nowMs then
      Except.error ("Site " ++ siteId ++ " has expired")
    else
      match uploadFilesValidate maxFileSize maxSiteSize nowSec nowMs st siteId files
          (metadata.totalSize : Int) [] with
      | Except.error e => Except.error e
      | Except.ok (siteFiles, totalSize) => Except.ok (metadata, siteFiles, totalSize)

/-- Embedding of `SiteUploader.uploadFiles`: run the validation phase, then store
every file; the site metadata entry is never rewritten. -/
def uploadFiles (ledger : Ledger) (nowSec nowMs maxFileSize maxSiteSize : Nat)
    (st : Mirror) (siteId : String) (files : List RawFile) :
    Mirror × Except String UploadResult :=
  match uploadFilesChecks nowSec nowMs maxFileSize maxSiteSize st siteId files with
  | Except.error e => (st, Except.error e)
  | Except.ok (metadata, siteFiles, totalSize) =>
    let r := storeFilesLoop ledger nowSec siteId siteFiles st []
    (r.1,
     Except.ok
       { siteId := siteId
         domain := metadata.domain
         files := (siteFiles.zip r.2).map
           (fun p => { path := p.1.path, size := p.1.size, key := p.2, txHash := none })
         totalSize := totalSize
         indexTxHash := none })

/-- Phase of one in-flight `GolemDBClient.createEntity` call: before
the nonce fetch, holding a fetched nonce, or after submitting a
transaction signed with that nonce. -/
inductive ThreadPhase where
  | start : ThreadPhase
  | gotNonce : Nat → ThreadPhase
  | submitted : Nat → ThreadPhase
deriving DecidableEq, Repr

/-- Shared state of two concurrent `createEntity` calls from the same
signing account: the pending transaction count the RPC node reports via
`eth_getTransactionCount(account, pending)`, plus each call's phase. -/
structure NonceState where
  pendingCount : Nat
  t1 : ThreadPhase
  t2 : ThreadPhase
deriving DecidableEq, Repr

/-- Interleaving semantics of `GolemDBClient.createEntity` as written:
`getNonce` reads the current pending count, and `sendRawTransaction` of
the envelope signed with that nonce bumps the pending count.  The
source takes no lock between the two awaits, so every interleaving of
the two calls is admitted. -/
inductive NonceStep : NonceState → NonceState → Prop where
  | fetch1 (s : NonceState) (h : s.t1 = ThreadPhase.start) :
      NonceStep s { s with t1 := ThreadPhase.gotNonce s.pendingCount }
  | fetch2 (s : NonceState) (h : s.t2 = ThreadPhase.start) :
      NonceStep s { s with t2 := ThreadPhase.gotNonce s.pendingCount }
  | submit1 (s : NonceState) (n : Nat) (h : s.t1 = ThreadPhase.gotNonce n) :
      NonceStep s { s with t1 := ThreadPhase.submitted n, pendingCount := s.pendingCount + 1 }
  | submit2 (s : NonceState) (n : Nat) (h : s.t2 = ThreadPhase.gotNonce n) :
      NonceStep s { s with t2 := ThreadPhase.submitted n, pendingCount := s.pendingCount + 1 }

/-- Initial state: no pending transactions, both calls not yet
started. -/
def nonceInit : NonceState :=
  { pendingCount := 0, t1 := ThreadPhase.start, t2 := ThreadPhase.start }

/-- A file key and the metadata key of the same site always differ:
after the shared site prefix one continues with a colon-file segment
and the other with a colon-metadata segment. -/
theorem fileKey_ne_metadataKey (s p : String) :
    generateFileKey s p ≠ generateMetadataKey s := by
  intro h
  have h1 := congrArg String.data h
  simp only [generateFileKey, generateMetadataKey, String.data_append,
    List.append_assoc] at h1
  have h2 := List.append_cancel_left (List.append_cancel_left h1)
  have h3 := congrArg (fun l => l.get? 1) h2
  simp [show (":file:").data = [':', 'f', 'i', 'l', 'e', ':'] from rfl,
    show (":metadata").data = [':', 'm', 'e', 't', 'a', 'd', 'a', 't', 'a'] from rfl] at h3

/-- A normalized path the source rejects: containing a traversal
segment, an empty segment, or empty overall. -/
def pathInvalid (p : String) : Bool :=
  strContains p ".." || strContains p "//" || decide (p.length = 0)

/-- A batch that must be rejected by `uploadSite` according to the
claimed validation conditions: some file with an invalid path, some
file over the per-file limit, a total over the site limit, or no entry
point. -/
def batchInvalid (maxFileSize maxSiteSize : Nat) (files : List RawFile) : Bool :=
  files.any (fun fd => pathInvalid (normalizePath fd.path)) ||
  files.any (fun fd => decide (maxFileSize < fd.content.length)) ||
  decide (maxSiteSize < (files.map (fun fd => fd.content.length)).sum) ||
  !(files.any (fun fd =>
      normalizePath fd.path == "index.html" || normalizePath fd.path == "index.htm"))

theorem mirrorLookup_insert_self (st : Mirror) (k : String) (e : DBChainEntry) :
    mirrorLookup (mirrorInsert st k e) k = some e := by
  simp [mirrorLookup, mirrorInsert]

theorem mirrorLookup_insert_ne (st : Mirror) (k k' : String) (e : DBChainEntry)
    (h : k' ≠ k) : mirrorLookup (mirrorInsert st k e) k' = mirrorLookup st k' := by
  simp [mirrorLookup, mirrorInsert, List.find?_cons, Ne.symm h]

/-- Full inversion of a successful `processFile`: the produced record
is determined by the raw file, and the normalized path passed every
path check. -/
theorem processFile_ok_inv {nowMs : Nat} {fd : RawFile} {f : SiteFile}
    (h : processFile nowMs fd = Except.ok f) :
    f = { path := normalizePath fd.path
          content := fd.content
          contentType := lookupMime (normalizePath fd.path)
          size := fd.content.length
          lastModified := nowMs } ∧
      pathInvalid (normalizePath fd.path) = false := by
  unfold processFile at h
  by_cases h1 : (strContains (normalizePath fd.path) ".." ||
      strContains (normalizePath fd.path) "//") = true
  · simp [h1] at h
  · by_cases h2 : ((normalizePath fd.path).length == 0) = true
    · simp [h1, h2] at h
    · simp [h1, h2] at h
      refine ⟨h.symm, ?_⟩
      simp only [Bool.or_eq_true, not_or] at h1
      simp [pathInvalid, h1.1, h1.2]
      simpa using h2

theorem forall2_mem_left {α β : Type} {R : α → β → Prop} :
    ∀ {as : List α} {bs : List β}, List.Forall₂ R as bs →
      ∀ a ∈ as, ∃ b ∈ bs, R a b := by
  intro as bs h
  induction h with
  | nil => intro a ha; cases ha
  | cons hr _ ih =>
    intro a ha
    rcases List.mem_cons.mp ha with rfl | ha2
    · exact ⟨_, List.mem_cons_self _ _, hr⟩
    · obtain ⟨b, hb, hrb⟩ := ih a ha2
      exact ⟨b, List.mem_cons_of_mem _ hb, hrb⟩

theorem forall2_mem_right {α β : Type} {R : α → β → Prop} :
    ∀ {as : List α} {bs : List β}, List.Forall₂ R as bs →
      ∀ b ∈ bs, ∃ a ∈ as, R a b := by
  intro as bs h
  induction h with
  | nil => intro b hb; cases hb
  | cons hr _ ih =>
    intro b hb
    rcases List.mem_cons.mp hb with rfl | hb2
    · exact ⟨_, List.mem_cons_self _ _, hr⟩
    · obtain ⟨a, ha, hra⟩ := ih b hb2
      exact ⟨a, List.mem_cons_of_mem _ ha, hra⟩

theorem forall2_map_eq {α β γ : Type} {R : α → β → Prop} {f : α → γ} {g : β → γ} :
    ∀ {as : List α} {bs : List β}, List.Forall₂ R as bs →
      (∀ a b, R a b → f a = g b) → as.map f = bs.map g := by
  intro as bs h hfg
  induction h with
  | nil => rfl
  | cons hr _ ih => simp [hfg _ _ hr, ih]

/-- Inversion of a successful `uploadSite` validation loop: every raw
file was processed within the per-file limit, the output extends the
accumulator by exactly the processed files, the returned total is the
accumulated sum of content lengths, and (for a nonempty batch) that
total passed the site limit check. -/
theorem processBatch_ok_inv {maxFileSize maxSiteSize nowMs : Nat} :
    ∀ (files : List RawFile) (total : Nat) (acc sfs : List SiteFile) (tot : Nat),
    processBatch maxFileSize maxSiteSize nowMs files total acc = Except.ok (sfs, tot) →
    ∃ ps, sfs = acc ++ ps ∧
      List.Forall₂
        (fun fd f => processFile nowMs fd = Except.ok f ∧ f.size ≤ maxFileSize)
        files ps ∧
      tot = total + (files.map (fun fd => fd.content.length)).sum ∧
      (files = [] ∨ tot ≤ maxSiteSize) := by
  intro files
  induction files with
  | nil =>
    intro total acc sfs tot h
    simp [processBatch] at h
    exact ⟨[], by simp [h.1.symm], List.Forall₂.nil, by simp [h.2], Or.inl rfl⟩
  | cons fd rest ih =>
    intro total acc sfs tot h
    simp only [processBatch] at h
    cases hpf : processFile nowMs fd with
    | error e => rw [hpf] at h; cases h
    | ok f =>
      rw [hpf] at h
      by_cases hsz : (maxFileSize < f.size)
      · simp [hsz] at h
      · simp only [hsz, if_false] at h
        by_cases htot : (maxSiteSize < total + f.size)
        · simp [htot] at h
        · simp only [htot, if_false] at h
          obtain ⟨ps, hps, hfa, hsum, hbound⟩ := ih (total + f.size) (acc ++ [f]) sfs tot h
          have hsize : f.size = fd.content.length := by
            obtain ⟨hf, -⟩ := processFile_ok_inv hpf
            rw [hf]
          refine ⟨f :: ps, by simpa using hps, List.Forall₂.cons ⟨hpf, Nat.le_of_not_lt hsz⟩ hfa, ?_, ?_⟩
          · simp [hsum, hsize]; omega
          · right
            rcases hbound with hrest | hle
            · subst hrest
              simp at hsum
              omega
            · exact hle

/-- Inversion of a successful `validateSiteStructure`: an entry point
is present and no file violates the extension denylist or the
hidden-file policy. -/
theorem validateSiteStructure_ok_inv {files : List SiteFile}
    (h : validateSiteStructure files = Except.ok ()) :
    hasIndexFile files = true ∧
      ∀ f ∈ files, forbiddenExt f.path = false ∧ hiddenViolation f.path = false := by
  unfold validateSiteStructure at h
  by_cases hidx : hasIndexFile files = true
  · refine ⟨hidx, ?_⟩
    simp only [hidx, Bool.not_true, if_false] at h
    cases hfb : files.find? (fun f => forbiddenExt f.path) with
    | some f => rw [hfb] at h; cases h
    | none =>
      rw [hfb] at h
      cases hhd : files.find? (fun f => hiddenViolation f.path) with
      | some f => rw [hhd] at h; cases h
      | none =>
        intro f hf
        have h1 := List.find?_eq_none.mp hfb f hf
        have h2 := List.find?_eq_none.mp hhd f hf
        simp at h1 h2
        exact ⟨h1, h2⟩
  · simp [Bool.not_eq_true] at hidx
    simp [hidx] at h

/-- Inversion of a successful `uploadSite` validation phase. -/
theorem uploadSiteChecks_ok_inv {nowSec nowMs maxFileSize maxSiteSize : Nat}
    {st : Mirror} {siteId : String} {files : List RawFile}
    {sfs : List SiteFile} {tot : Nat}
    (h : uploadSiteChecks nowSec nowMs maxFileSize maxSiteSize st siteId files =
      Except.ok (sfs, tot)) :
    schemaOk siteId files = true ∧
      getSiteMetadata nowSec st siteId = none ∧
      processBatch maxFileSize maxSiteSize nowMs files 0 [] = Except.ok (sfs, tot) ∧
      validateSiteStructure sfs = Except.ok () := by
  unfold uploadSiteChecks at h
  cases hs : schemaOk siteId files with
  | false => simp [hs] at h
  | true =>
    simp only [hs] at h
    cases hm : getSiteMetadata nowSec st siteId with
    | some m => simp [hm] at h
    | none =>
      simp only [hm] at h
      cases hpb : processBatch maxFileSize maxSiteSize nowMs files 0 [] with
      | error e => simp [hpb] at h
      | ok pr =>
        obtain ⟨sfs1, tot1⟩ := pr
        simp only [hpb] at h
        cases hvs : validateSiteStructure sfs1 with
        | error e => simp [hvs] at h
        | ok u =>
          cases u
          simp only [hvs, Bool.not_true, Bool.false_eq_true, if_false,
            Except.ok.injEq, Prod.mk.injEq] at h
          obtain ⟨h1, h2⟩ := h
          subst h1
          subst h2
          exact ⟨rfl, rfl, rfl, hvs⟩

/-- Equation for `uploadSite` when the validation phase fails: the
mirror is untouched and the error is surfaced. -/
theorem uploadSite_of_checks_error {ledger : Ledger}
    {nowSec nowMs maxFileSize maxSiteSize : Nat} {st : Mirror} {siteId : String}
    {files : List RawFile} {e : String}
    (h : uploadSiteChecks nowSec nowMs maxFileSize maxSiteSize st siteId files =
      Except.error e) :
    uploadSite ledger nowSec nowMs maxFileSize maxSiteSize st siteId files =
      (st, Except.error e) := by
  unfold uploadSite
  rw [h]

/-- The store loop of `uploadFiles` writes only file keys, so the
metadata entry of the site is untouched. -/
theorem storeFilesLoop_metadata_lookup (ledger : Ledger) (nowSec : Nat) (siteId : String) :
    ∀ (fs : List SiteFile) (st : Mirror) (keys : List String),
      mirrorLookup (storeFilesLoop ledger nowSec siteId fs st keys).1 (generateMetadataKey siteId) =
        mirrorLookup st (generateMetadataKey siteId) := by
  intro fs
  induction fs with
  | nil => intro st keys; rfl
  | cons f rest ih =>
    intro st keys
    simp only [storeFilesLoop]
    rw [ih]
    exact mirrorLookup_insert_ne st (generateFileKey siteId f.path)
      (generateMetadataKey siteId) (mkFileEntry nowSec siteId f)
      (fun hk => fileKey_ne_metadataKey siteId f.path hk.symm)

/-- Metadata reads only depend on the mirror contents under the
metadata key. -/
theorem getSiteMetadata_congr {st1 st2 : Mirror} {siteId : String} (nowSec : Nat)
    (h : mirrorLookup st1 (generateMetadataKey siteId) =
      mirrorLookup st2 (generateMetadataKey siteId)) :
    getSiteMetadata nowSec st1 siteId = getSiteMetadata nowSec st2 siteId := by
  unfold getSiteMetadata
  rw [h]

/-- C1: for every site file, if the ledger write fails, `storeFile`
still succeeds by writing the entry to the local mirror, and the
returned reference is the plain entry key rather than a ledger
reference; the operation never fails solely because the ledger failed. -/
theorem storeFile_ledger_degradation (ledger : Ledger) (nowSec : Nat)
    (st : Mirror) (siteId : String) (f : SiteFile)
    (h : ledger (generateFileKey siteId f.path) = none) :
    mirrorLookup (storeFile ledger nowSec st siteId f).1 (generateFileKey siteId f.path) =
        some (mkFileEntry nowSec siteId f) ∧
      (storeFile ledger nowSec st siteId f).2 = generateFileKey siteId f.path := by
  constructor
  · exact mirrorLookup_insert_self st (generateFileKey siteId f.path) (mkFileEntry nowSec siteId f)
  · simp [storeFile, h]

theorem storeFile_ledger_degradation_witness :
    mirrorLookup
        (storeFile (fun _ => none) 10 [] "s"
          { path := "index.html", content := [104], contentType := "text/html",
            size := 1, lastModified := 7 }).1
        (generateFileKey "s" "index.html") =
      some (mkFileEntry 10 "s"
        { path := "index.html", content := [104], contentType := "text/html",
          size := 1, lastModified := 7 }) ∧
    (storeFile (fun _ => none) 10 [] "s"
        { path := "index.html", content := [104], contentType := "text/html",
          size := 1, lastModified := 7 }).2 = generateFileKey "s" "index.html" :=
  storeFile_ledger_degradation (fun _ => none) 10 [] "s"
    { path := "index.html", content := [104], contentType := "text/html",
      size := 1, lastModified := 7 } rfl

/-- C7: an entry whose expiry timestamp lies in the past is reported
absent by `getFile` and `getSiteMetadata`, even though the physical
record is still present in the mirror. -/
theorem expired_entries_absent (nowSec : Nat) (st : Mirror) (siteId path : String)
    (e1 e2 : DBChainEntry)
    (hf : mirrorLookup st (generateFileKey siteId path) = some e1)
    (h1 : 0 < e1.btl) (h2 : e1.btl < nowSec)
    (hm : mirrorLookup st (generateMetadataKey siteId) = some e2)
    (h3 : 0 < e2.btl) (h4 : e2.btl < nowSec) :
    getFile nowSec st siteId path = none ∧ getSiteMetadata nowSec st siteId = none := by
  constructor
  · unfold getFile
    rw [hf]
    simp [isExpired, h1, h2]
  · unfold getSiteMetadata
    rw [hm]
    simp [isExpired, h3, h4]

theorem expired_entries_absent_witness :
    getFile 100 [(generateFileKey "s" "a.txt",
        { key := generateFileKey "s" "a.txt", value := EntryValue.bytes [1],
          metadata := { contentType := "text/plain", path := "a.txt", siteId := "s",
                        size := 1, lastModified := 0 }, btl := 50 }),
      (generateMetadataKey "s",
        { key := generateMetadataKey "s",
          value := EntryValue.metaJson
            { siteId := "s", name := "s", domain := "s.webdb.site", totalSize := 1,
              fileCount := 1, createdAt := 0, btlExpiry := 50000 },
          metadata := { contentType := "application/json", path := "_metadata",
                        siteId := "s", size := 0, lastModified := 0 }, btl := 50 })]
      "s" "a.txt" = none ∧
    getSiteMetadata 100 [(generateFileKey "s" "a.txt",
        { key := generateFileKey "s" "a.txt", value := EntryValue.bytes [1],
          metadata := { contentType := "text/plain", path := "a.txt", siteId := "s",
                        size := 1, lastModified := 0 }, btl := 50 }),
      (generateMetadataKey "s",
        { key := generateMetadataKey "s",
          value := EntryValue.metaJson
            { siteId := "s", name := "s", domain := "s.webdb.site", totalSize := 1,
              fileCount := 1, createdAt := 0, btlExpiry := 50000 },
          metadata := { contentType := "application/json", path := "_metadata",
                        siteId := "s", size := 0, lastModified := 0 }, btl := 50 })]
      "s" = none :=
  expired_entries_absent 100
    [(generateFileKey "s" "a.txt",
        { key := generateFileKey "s" "a.txt", value := EntryValue.bytes [1],
          metadata := { contentType := "text/plain", path := "a.txt", siteId := "s",
                        size := 1, lastModified := 0 }, btl := 50 }),
      (generateMetadataKey "s",
        { key := generateMetadataKey "s",
          value := EntryValue.metaJson
            { siteId := "s", name := "s", domain := "s.webdb.site", totalSize := 1,
              fileCount := 1, createdAt := 0, btlExpiry := 50000 },
          metadata := { contentType := "application/json", path := "_metadata",
                        siteId := "s", size := 0, lastModified := 0 }, btl := 50 })]
    "s" "a.txt"
    { key := generateFileKey "s" "a.txt", value := EntryValue.bytes [1],
      metadata := { contentType := "text/plain", path := "a.txt", siteId := "s",
                    size := 1, lastModified := 0 }, btl := 50 }
    { key := generateMetadataKey "s",
      value := EntryValue.metaJson
        { siteId := "s", name := "s", domain := "s.webdb.site", totalSize := 1,
          fileCount := 1, createdAt := 0, btlExpiry := 50000 },
      metadata := { contentType := "application/json", path := "_metadata",
                    siteId := "s", size := 0, lastModified := 0 }, btl := 50 }
    (by decide) (by decide) (by decide) (by decide) (by decide) (by decide)

/-- C3: a site-creation call for a siteId whose metadata entry exists
and is unexpired fails with the conflict error and leaves the mirror,
hence the set of metadata entries, unchanged. -/
theorem uploadSite_conflict (ledger : Ledger) (nowSec nowMs maxFileSize maxSiteSize : Nat)
    (st : Mirror) (siteId : String) (files : List RawFile) (m : SiteMetadata)
    (h1 : schemaOk siteId files = true)
    (h2 : getSiteMetadata nowSec st siteId = some m) :
    uploadSite ledger nowSec nowMs maxFileSize maxSiteSize st siteId files =
      (st, Except.error ("Site " ++ siteId ++ " already exists")) := by
  apply uploadSite_of_checks_error
  unfold uploadSiteChecks
  rw [h1, h2]
  simp

theorem uploadSite_conflict_witness :
    uploadSite (fun _ => none) 1000 100000 100 1000
        [(generateMetadataKey "s", mkMetadataEntry 10 "s"
          { siteId := "s", name := "s", domain := "s.webdb.site", totalSize := 1,
            fileCount := 1, createdAt := 0, btlExpiry := 999999999999 })]
        "s" [⟨"index.html", [104]⟩] =
      ([(generateMetadataKey "s", mkMetadataEntry 10 "s"
          { siteId := "s", name := "s", domain := "s.webdb.site", totalSize := 1,
            fileCount := 1, createdAt := 0, btlExpiry := 999999999999 })],
        Except.error ("Site " ++ "s" ++ " already exists")) :=
  uploadSite_conflict (fun _ => none) 1000 100000 100 1000 _ "s" _
    { siteId := "s", name := "s", domain := "s.webdb.site", totalSize := 1,
      fileCount := 1, createdAt := 0, btlExpiry := 999999999999 }
    (by decide) (by decide)

/-- C10: `uploadFiles` never writes the site metadata entry: whatever
it does to the mirror, a later `getSiteMetadata` read at any time sees
exactly what it saw before the call. -/
theorem uploadFiles_metadata_frame (ledger : Ledger)
    (nowSec nowMs maxFileSize maxSiteSize nowSec2 : Nat) (st : Mirror)
    (siteId : String) (files : List RawFile) :
    getSiteMetadata nowSec2
        (uploadFiles ledger nowSec nowMs maxFileSize maxSiteSize st siteId files).1 siteId =
      getSiteMetadata nowSec2 st siteId := by
  unfold uploadFiles
  cases hc : uploadFilesChecks nowSec nowMs maxFileSize maxSiteSize st siteId files with
  | error e => rfl
  | ok tr =>
    obtain ⟨metadata, siteFiles, totalSize⟩ := tr
    exact getSiteMetadata_congr nowSec2
      (storeFilesLoop_metadata_lookup ledger nowSec siteId siteFiles st [])

/-- Equation for `uploadSite` when the validation phase succeeds: the
new mirror is the one produced by `storeSite` on the validated files. -/
theorem uploadSite_fst_of_checks_ok {ledger : Ledger}
    {nowSec nowMs maxFileSize maxSiteSize : Nat} {st : Mirror} {siteId : String}
    {files : List RawFile} {sfs : List SiteFile} {tot : Nat}
    (hc : uploadSiteChecks nowSec nowMs maxFileSize maxSiteSize st siteId files =
      Except.ok (sfs, tot)) :
    (uploadSite ledger nowSec nowMs maxFileSize maxSiteSize st siteId files).1 =
      (storeSite ledger nowSec nowMs st siteId sfs).1 := by
  unfold uploadSite
  rw [hc]

/-- Reading the site metadata right after `storeSite` yields exactly
the metadata record it computed, as long as the read happens within the
thirty-day lifetime. -/
theorem getSiteMetadata_storeSite (ledger : Ledger) (nowSec nowMs nowSec2 : Nat)
    (st : Mirror) (siteId : String) (sfs : List SiteFile)
    (h : nowSec2 ≤ nowSec + btlSeconds) :
    getSiteMetadata nowSec2 (storeSite ledger nowSec nowMs st siteId sfs).1 siteId =
      some { siteId := siteId, name := siteId, domain := siteId ++ ".webdb.site",
             totalSize := (sfs.map (fun f => f.size)).sum, fileCount := sfs.length,
             createdAt := nowMs, btlExpiry := nowMs + btlMillis } := by
  unfold getSiteMetadata storeSite
  simp only []
  rw [mirrorLookup_insert_self]
  simp [mkMetadataEntry, isExpired, Nat.not_lt.mpr h]

/-- C4: a file stored through `processFile` and `storeFile` is
returned by a later in-lifetime `getFile` with byte-equal content and
the content type derived from the path extension at write time. -/
theorem getFile_roundtrip (ledger : Ledger) (nowSec nowSec2 nowMs : Nat)
    (st : Mirror) (siteId : String) (fd : RawFile) (f : SiteFile)
    (h1 : processFile nowMs fd = Except.ok f)
    (h2 : nowSec2 ≤ nowSec + btlSeconds) :
    getFile nowSec2 (storeFile ledger nowSec st siteId f).1 siteId f.path =
      some { path := normalizePath fd.path
             content := fd.content
             contentType := lookupMime (normalizePath fd.path)
             size := fd.content.length
             lastModified := nowMs } := by
  obtain ⟨hf, -⟩ := processFile_ok_inv h1
  subst hf
  unfold getFile storeFile
  simp only []
  rw [mirrorLookup_insert_self]
  simp [mkFileEntry, isExpired, Nat.not_lt.mpr h2]

theorem getFile_roundtrip_witness :
    getFile 20 (storeFile (fun _ => none) 10 [] "s"
        { path := "index.html", content := [104, 105], contentType := "text/html",
          size := 2, lastModified := 7 }).1 "s"
        ({ path := "index.html", content := [104, 105], contentType := "text/html",
           size := 2, lastModified := 7 } : SiteFile).path =
      some { path := normalizePath "index.html"
             content := [104, 105]
             contentType := lookupMime (normalizePath "index.html")
             size := 2
             lastModified := 7 } :=
  getFile_roundtrip (fun _ => none) 10 20 7 [] "s" ⟨"index.html", [104, 105]⟩
    { path := "index.html", content := [104, 105], contentType := "text/html",
      size := 2, lastModified := 7 }
    (by decide) (by decide)

/-- C5: a successful `storeSite` run through `uploadSite`, followed
immediately by `getSiteMetadata`, returns metadata whose file count is
the batch length and whose total size is the sum of the byte lengths of
the batch files. -/
theorem storeSite_metadata_counts (ledger : Ledger)
    (nowSec nowMs maxFileSize maxSiteSize : Nat) (st : Mirror) (siteId : String)
    (files : List RawFile) (res : UploadResult)
    (h : (uploadSite ledger nowSec nowMs maxFileSize maxSiteSize st siteId files).2 =
      Except.ok res) :
    ∃ m, getSiteMetadata nowSec
          (uploadSite ledger nowSec nowMs maxFileSize maxSiteSize st siteId files).1 siteId =
        some m ∧
      m.fileCount = files.length ∧
      m.totalSize = (files.map (fun fd => fd.content.length)).sum := by
  cases hc : uploadSiteChecks nowSec nowMs maxFileSize maxSiteSize st siteId files with
  | error e =>
    rw [uploadSite_of_checks_error hc] at h
    cases h
  | ok pr =>
    obtain ⟨sfs, tot⟩ := pr
    obtain ⟨hs, hm, hpb, hvs⟩ := uploadSiteChecks_ok_inv hc
    obtain ⟨ps, hps, hfa, hsum, hbound⟩ := processBatch_ok_inv files 0 [] sfs tot hpb
    simp only [List.nil_append] at hps
    subst hps
    rw [uploadSite_fst_of_checks_ok hc,
      getSiteMetadata_storeSite ledger nowSec nowMs nowSec st siteId sfs
        (Nat.le_add_right nowSec btlSeconds)]
    refine ⟨_, rfl, ?_, ?_⟩
    · exact (List.Forall₂.length_eq hfa).symm
    · have hmap : files.map (fun fd => fd.content.length) = sfs.map (fun f => f.size) := by
        refine forall2_map_eq hfa ?_
        intro fd f hr
        obtain ⟨hf, -⟩ := processFile_ok_inv hr.1
        rw [hf]
      rw [hmap]

theorem storeSite_metadata_counts_witness :
    ∃ m, getSiteMetadata 10
          (uploadSite (fun _ => none) 10 10000 100 1000 [] "mysite"
            [⟨"index.html", [104]⟩, ⟨"style.css", [99, 99]⟩]).1 "mysite" =
        some m ∧
      m.fileCount = ([⟨"index.html", [104]⟩, ⟨"style.css", [99, 99]⟩] : List RawFile).length ∧
      m.totalSize = (([⟨"index.html", [104]⟩, ⟨"style.css", [99, 99]⟩] : List RawFile).map
        (fun fd => fd.content.length)).sum :=
  storeSite_metadata_counts (fun _ => none) 10 10000 100 1000 [] "mysite"
    [⟨"index.html", [104]⟩, ⟨"style.css", [99, 99]⟩]
    { siteId := "mysite"
      domain := "mysite.webdb.site"
      files := [{ path := "index.html", size := 1, key := "site:mysite:file:index.html",
                  txHash := some "site:mysite:file:index.html" },
                { path := "style.css", size := 2, key := "site:mysite:file:style.css",
                  txHash := some "site:mysite:file:style.css" }]
      totalSize := 3
      indexTxHash := some "site:mysite:file:index.html" }
    (by decide)

/-- C2: a batch containing any file that fails validation — an invalid
path (traversal, empty segment, or empty), an oversized file, a total
over the site limit, or a missing entry point — is rejected as a whole
before any write: `uploadSite` errors and the mirror is unchanged, so
every read, including `getFile` for sibling files of the batch, sees
exactly the prior state. -/
theorem uploadSite_invalid_batch_rejected (ledger : Ledger)
    (nowSec nowMs maxFileSize maxSiteSize : Nat) (st : Mirror) (siteId : String)
    (files : List RawFile)
    (h : batchInvalid maxFileSize maxSiteSize files = true) :
    (uploadSite ledger nowSec nowMs maxFileSize maxSiteSize st siteId files).1 = st ∧
      ∃ msg, (uploadSite ledger nowSec nowMs maxFileSize maxSiteSize st siteId files).2 =
        Except.error msg := by
  cases hc : uploadSiteChecks nowSec nowMs maxFileSize maxSiteSize st siteId files with
  | error e =>
    rw [uploadSite_of_checks_error hc]
    exact ⟨rfl, e, rfl⟩
  | ok pr =>
    exfalso
    obtain ⟨sfs, tot⟩ := pr
    obtain ⟨hs, hm, hpb, hvs⟩ := uploadSiteChecks_ok_inv hc
    obtain ⟨ps, hps, hfa, hsum, hbound⟩ := processBatch_ok_inv files 0 [] sfs tot hpb
    simp only [List.nil_append] at hps
    subst hps
    simp only [batchInvalid, Bool.or_eq_true, List.any_eq_true, decide_eq_true_eq,
      Bool.not_eq_true', List.any_eq_false, Bool.or_eq_false_iff] at h
    rcases h with ((⟨fd, hfd, hbad⟩ | ⟨fd, hfd, hbig⟩) | htot) | hnoidx
    · obtain ⟨f, hfmem, hpf, hle⟩ := forall2_mem_left hfa fd hfd
      obtain ⟨-, hpath⟩ := processFile_ok_inv hpf
      rw [hbad] at hpath
      cases hpath
    · obtain ⟨f, hfmem, hpf, hle⟩ := forall2_mem_left hfa fd hfd
      obtain ⟨hf, -⟩ := processFile_ok_inv hpf
      rw [hf] at hle
      exact absurd hle (Nat.not_le.mpr hbig)
    · rcases hbound with hnil | hle
      · subst hnil
        simp [schemaOk] at hs
      · rw [hsum] at hle
        simp at hle
        exact absurd hle (Nat.not_le.mpr htot)
    · obtain ⟨hidx, -⟩ := validateSiteStructure_ok_inv hvs
      simp only [hasIndexFile, Bool.or_eq_true, List.any_eq_true] at hidx
      rcases hidx with ⟨f, hfmem, hfp⟩ | ⟨f, hfmem, hfp⟩ <;>
      · obtain ⟨fd, hfd, hpf, -⟩ := forall2_mem_right hfa f hfmem
        obtain ⟨hf, -⟩ := processFile_ok_inv hpf
        have := hnoidx fd hfd
        rw [hf] at hfp
        simp only at hfp
        simp [hfp] at this

theorem uploadSite_invalid_batch_rejected_witness :
    (uploadSite (fun _ => none) 10 10000 100 1000 [] "mysite"
        [⟨"../../etc/passwd", [104]⟩, ⟨"index.html", [104]⟩]).1 = [] ∧
      ∃ msg, (uploadSite (fun _ => none) 10 10000 100 1000 [] "mysite"
        [⟨"../../etc/passwd", [104]⟩, ⟨"index.html", [104]⟩]).2 = Except.error msg :=
  uploadSite_invalid_batch_rejected (fun _ => none) 10 10000 100 1000 [] "mysite"
    [⟨"../../etc/passwd", [104]⟩, ⟨"index.html", [104]⟩] (by decide)

/-- A concrete existing unexpired site used to exercise `uploadFiles`:
one metadata entry created at second 10 with a far-future expiry. -/
def cexSiteMirror : Mirror :=
  [(generateMetadataKey "s", mkMetadataEntry 10 "s"
    { siteId := "s", name := "s", domain := "s.webdb.site", totalSize := 1,
      fileCount := 1, createdAt := 0, btlExpiry := 999999999999 })]

/-- C8 counterexample: `evil.exe` carries a denylisted extension, yet
`uploadFiles` on an existing site accepts the batch and commits the
file, because the extension denylist and hidden-file policy run only in
`uploadSite`; the claim that they are applied before any write for both
entry points is false. -/
theorem uploadFiles_skips_denylist_cex :
    forbiddenExt (normalizePath "evil.exe") = true ∧
      ((uploadFiles (fun _ => none) 1000 100000 100 1000 cexSiteMirror "s"
        [⟨"evil.exe", [77]⟩]).2).toOption.isSome = true ∧
      (getFile 1000 (uploadFiles (fun _ => none) 1000 100000 100 1000 cexSiteMirror "s"
        [⟨"evil.exe", [77]⟩]).1 "s" "evil.exe").isSome = true := by
  refine ⟨by decide, by decide, by decide⟩

/-- C8 amended: the extension denylist and the hidden-file policy are
applied to every file before any write in `uploadSite` — a batch
containing a denylisted or disallowed hidden file is rejected with the
mirror unchanged — but `uploadFiles` does not apply them. -/
theorem uploadSite_denylist_enforced (ledger : Ledger)
    (nowSec nowMs maxFileSize maxSiteSize : Nat) (st : Mirror) (siteId : String)
    (files : List RawFile)
    (h : ∃ fd ∈ files, forbiddenExt (normalizePath fd.path) = true ∨
      hiddenViolation (normalizePath fd.path) = true) :
    (uploadSite ledger nowSec nowMs maxFileSize maxSiteSize st siteId files).1 = st ∧
      ∃ msg, (uploadSite ledger nowSec nowMs maxFileSize maxSiteSize st siteId files).2 =
        Except.error msg := by
  cases hc : uploadSiteChecks nowSec nowMs maxFileSize maxSiteSize st siteId files with
  | error e =>
    rw [uploadSite_of_checks_error hc]
    exact ⟨rfl, e, rfl⟩
  | ok pr =>
    exfalso
    obtain ⟨sfs, tot⟩ := pr
    obtain ⟨hs, hm, hpb, hvs⟩ := uploadSiteChecks_ok_inv hc
    obtain ⟨ps, hps, hfa, -, -⟩ := processBatch_ok_inv files 0 [] sfs tot hpb
    simp only [List.nil_append] at hps
    subst hps
    obtain ⟨fd, hfd, hbad⟩ := h
    obtain ⟨f, hfmem, hpf, -⟩ := forall2_mem_left hfa fd hfd
    obtain ⟨hf, -⟩ := processFile_ok_inv hpf
    obtain ⟨-, hclean⟩ := validateSiteStructure_ok_inv hvs
    obtain ⟨hfb, hhd⟩ := hclean f hfmem
    have hfpath : f.path = normalizePath fd.path := by rw [hf]
    rcases hbad with hbad | hbad
    · rw [hfpath, hbad] at hfb
      cases hfb
    · rw [hfpath, hbad] at hhd
      cases hhd

theorem uploadSite_denylist_enforced_witness :
    (uploadSite (fun _ => none) 10 10000 100 1000 [] "mysite"
        [⟨"index.html", [104]⟩, ⟨"run.exe", [1]⟩]).1 = [] ∧
      ∃ msg, (uploadSite (fun _ => none) 10 10000 100 1000 [] "mysite"
        [⟨"index.html", [104]⟩, ⟨"run.exe", [1]⟩]).2 = Except.error msg :=
  uploadSite_denylist_enforced (fun _ => none) 10 10000 100 1000 [] "mysite"
    [⟨"index.html", [104]⟩, ⟨"run.exe", [1]⟩]
    ⟨⟨"run.exe", [1]⟩, by decide, Or.inl (by decide)⟩

/-- C6: on an existing unexpired site, replacing the file at an
existing path computes the resulting total incrementally: it starts
from the site's recorded total size, subtracts the replaced file's
recorded size, then adds the new file's size. -/
theorem uploadFiles_incremental (ledger : Ledger)
    (nowSec nowMs maxFileSize maxSiteSize : Nat) (st : Mirror) (siteId : String)
    (fd : RawFile) (f old : SiteFile) (m : SiteMetadata)
    (h1 : getSiteMetadata nowSec st siteId = some m)
    (h2 : nowMs ≤ m.btlExpiry)
    (h3 : processFile nowMs fd = Except.ok f)
    (h4 : f.size ≤ maxFileSize)
    (h5 : getFile nowSec st siteId f.path = some old)
    (h6 : (m.totalSize : Int) - (old.size : Int) + (f.size : Int) ≤ (maxSiteSize : Int)) :
    ∃ res, (uploadFiles ledger nowSec nowMs maxFileSize maxSiteSize st siteId [fd]).2 =
        Except.ok res ∧
      res.totalSize = (m.totalSize : Int) - (old.size : Int) + (fd.content.length : Int) := by
  have hval : uploadFilesValidate maxFileSize maxSiteSize nowSec nowMs st siteId [fd]
      (m.totalSize : Int) [] =
      Except.ok ([f], (m.totalSize : Int) - (old.size : Int) + (f.size : Int)) := by
    simp only [uploadFilesValidate, h3, h5, List.nil_append,
      if_neg (Nat.not_lt.mpr h4), if_neg (Int.not_lt.mpr h6)]
  have hchecks : uploadFilesChecks nowSec nowMs maxFileSize maxSiteSize st siteId [fd] =
      Except.ok (m, [f], (m.totalSize : Int) - (old.size : Int) + (f.size : Int)) := by
    simp only [uploadFilesChecks, h1, hval, if_neg (Nat.not_lt.mpr h2)]
  have hsize : f.size = fd.content.length := by
    obtain ⟨hf, -⟩ := processFile_ok_inv h3
    rw [hf]
  refine ⟨{ siteId := siteId, domain := m.domain,
            files := ([f].zip (storeFilesLoop ledger nowSec siteId [f] st []).2).map
              (fun p => { path := p.1.path, size := p.1.size, key := p.2, txHash := none }),
            totalSize := (m.totalSize : Int) - (old.size : Int) + (f.size : Int),
            indexTxHash := none }, ?_, ?_⟩
  · unfold uploadFiles
    rw [hchecks]
  · rw [← hsize]

theorem uploadFiles_incremental_witness :
    ∃ res, (uploadFiles (fun _ => none) 1000 100000 100 1000
        ((generateFileKey "s" "a.txt", mkFileEntry 10 "s"
          { path := "a.txt", content := [1, 2, 3, 4, 5], contentType := "text/plain",
            size := 5, lastModified := 0 }) :: cexSiteMirror) "s"
        [⟨"a.txt", [9, 9]⟩]).2 = Except.ok res ∧
      res.totalSize = ((1 : Nat) : Int) - ((5 : Nat) : Int) + (([9, 9] : List Nat).length : Int) :=
  uploadFiles_incremental (fun _ => none) 1000 100000 100 1000
    ((generateFileKey "s" "a.txt", mkFileEntry 10 "s"
      { path := "a.txt", content := [1, 2, 3, 4, 5], contentType := "text/plain",
        size := 5, lastModified := 0 }) :: cexSiteMirror) "s"
    ⟨"a.txt", [9, 9]⟩
    { path := "a.txt", content := [9, 9], contentType := "text/plain",
      size := 2, lastModified := 100000 }
    { path := "a.txt", content := [1, 2, 3, 4, 5], contentType := "text/plain",
      size := 5, lastModified := 0 }
    { siteId := "s", name := "s", domain := "s.webdb.site", totalSize := 1,
      fileCount := 1, createdAt := 0, btlExpiry := 999999999999 }
    (by decide) (by decide) (by decide) (by decide) (by decide) (by decide)

/-- C9: the claimed serialized nonce acquisition does not exist in the
code; the interleaving in which both concurrent `createEntity` calls
run `getNonce` before either submits is admitted by the source and
makes both calls sign with sequence number 0 — the same nonce is
reused by two writes. -/
theorem nonce_collision_reachable :
    Relation.ReflTransGen NonceStep nonceInit
      { pendingCount := 2, t1 := ThreadPhase.submitted 0, t2 := ThreadPhase.submitted 0 } := by
  apply Relation.ReflTransGen.head (NonceStep.fetch1 nonceInit rfl)
  apply Relation.ReflTransGen.head (NonceStep.fetch2 _ rfl)
  apply Relation.ReflTransGen.head (NonceStep.submit1 _ 0 rfl)
  exact Relation.ReflTransGen.single (NonceStep.submit2 _ 0 rfl)
